import Mathlib

/-!
Verification of the session & scraping client of the `vscode-openjudge`
extension.  The TypeScript source is embedded shallowly: each pure fragment
of the code (the `CookieJar` class, the cookie-string parsing of
`loginWithCookie`, the status handling of `makeRequest`, the `HtmlParser`
extraction functions and the submission polling loop of
`SubmissionService.showSubmissionStatus`) is translated into an executable
Lean definition, and the spec's testable properties are proved or refuted
against those definitions.

JavaScript string primitives (`split`, `trim`, `toLowerCase`, `startsWith`,
`substring`, `includes`) are re-implemented here by structural recursion on
`List Char` so that every definition evaluates inside the kernel.  They
agree with the JavaScript semantics on the inputs the client handles
(ASCII attribute names, BMP text); `parseInt` is modelled for the decimal
forms the scraped pages produce (optional sign, leading whitespace), the
hexadecimal auto-detection of JavaScript is not modelled since no scraped
count uses it.
-/

/-- `s.split(c)` for a single-character separator, on character lists:
`""` yields `[""]`, separators at either end yield empty fragments. -/
def splitOnChar (c : Char) : List Char → List (List Char)
  | [] => [[]]
  | x :: xs =>
    let r := splitOnChar c xs
    if x == c then [] :: r
    else
      match r with
      | h :: t => (x :: h) :: t
      | [] => [[x]]

/-- Whitespace trimming at both ends (JavaScript `String.prototype.trim`). -/
def trimChars (cs : List Char) : List Char :=
  ((cs.dropWhile Char.isWhitespace).reverse.dropWhile Char.isWhitespace).reverse

/-- JavaScript `s.trim()`. -/
def jsTrim (s : String) : String := String.mk (trimChars s.toList)

/-- JavaScript `s.split(c)` for a one-character separator. -/
def jsSplit (s : String) (c : Char) : List String :=
  (splitOnChar c s.toList).map String.mk

/-- JavaScript `s.toLowerCase()` (ASCII case folding suffices here). -/
def jsToLower (s : String) : String := String.mk (s.toList.map Char.toLower)

/-- Is the first list a prefix of the second? (Boolean, executable.) -/
def listIsPre : List Char → List Char → Bool
  | [], _ => true
  | _ :: _, [] => false
  | a :: as, b :: bs => a == b && listIsPre as bs

/-- JavaScript `s.startsWith(p)`. -/
def jsStarts (s p : String) : Bool := listIsPre p.toList s.toList

/-- Is the first list a contiguous infix of the second? -/
def listIsInf (p : List Char) : List Char → Bool
  | [] => listIsPre p []
  | b :: bs => listIsPre p (b :: bs) || listIsInf p bs

/-- JavaScript `a.includes(b)` (substring containment). -/
def jsIncludes (a b : String) : Bool := listIsInf b.toList a.toList

/-- JavaScript `s.substring(n)`: drop the first `n` characters. -/
def jsSubstringFrom (s : String) (n : Nat) : String := String.mk (s.toList.drop n)

/-- JavaScript `s.substring(0, n)`: the first `n` characters. -/
def jsSubstringTo (s : String) (n : Nat) : String := String.mk (s.toList.take n)

/-- Decimal digits to a natural number. -/
def natOfDigits (ds : List Char) : Nat :=
  ds.foldl (fun n c => 10 * n + (c.toNat - '0'.toNat)) 0

/-- JavaScript `parseInt(s)` restricted to decimal forms: skip leading
whitespace, optional sign, then a maximal digit run; `none` models `NaN`. -/
def parseIntJS (s : String) : Option Int :=
  let cs := s.toList.dropWhile Char.isWhitespace
  let signed : Bool × List Char :=
    match cs with
    | '-' :: t => (true, t)
    | '+' :: t => (false, t)
    | t => (false, t)
  let ds := signed.2.takeWhile Char.isDigit
  if ds.isEmpty then none
  else some (if signed.1 then -(natOfDigits ds : Int) else (natOfDigits ds : Int))

/-- JavaScript `a || b` for a possibly-absent string `a`: an absent or
empty (falsy) `a` yields `b`. -/
def jsOrStr (a : Option String) (b : String) : String :=
  match a with
  | none => b
  | some s => if s = "" then b else s

/-- JavaScript `a || b` when the fallback may itself be absent. -/
def jsOrOpt (a b : Option String) : Option String :=
  match a with
  | none => b
  | some s => if s = "" then b else some s

/-! ## CookieJar (`apiClient.ts`, class `CookieJar`)

The jar's backing `Map` is modelled as an ordered association list with the
`Map.set` semantics: an existing key keeps its position and gets the new
record, a fresh key is appended.  A cookie's `value` is `Option String`
because the JavaScript destructuring `const [name, value] = nameValue.split("=")`
leaves `value` `undefined` when the header segment has no `=`. -/

/-- The stored per-cookie record `{value, domain, path}`. -/
structure CookieRec where
  value : Option String
  domain : String
  path : String
deriving DecidableEq, Repr

/-- The jar contents: insertion-ordered `(name, record)` pairs. -/
abbrev Jar := List (String × CookieRec)

/-- JavaScript `Map.set`: overwrite in place if the key exists, else append. -/
def jarSet (m : Jar) (n : String) (r : CookieRec) : Jar :=
  if (List.any m fun p => p.1 == n) then
    List.map (fun p => if p.1 == n then (n, r) else p) m
  else m ++ [(n, r)]

/-- `CookieJar.setCookie` for one `Set-Cookie` header value: split on `;`,
trim the parts, take the first `name=value` pair as identity, then scan the
remaining attributes case-insensitively for `path=` / `domain=`. -/
def setCookieOne (m : Jar) (header : String) (domain : String) : Jar :=
  let parts := (jsSplit header ';').map jsTrim
  let nameValue := parts.headD ""
  let nv := jsSplit nameValue '='
  let name := nv.headD ""
  let value := nv.get? 1
  let dp : String × String :=
    (parts.drop 1).foldl
      (fun acc part =>
        if jsStarts (jsToLower part) "path=" then (acc.1, jsSubstringFrom part 5)
        else if jsStarts (jsToLower part) "domain=" then (jsSubstringFrom part 7, acc.2)
        else acc)
      (domain, "/")
  jarSet m name { value := value, domain := dp.1, path := dp.2 }

/-- `CookieJar.setCookie` over the (possibly plural) header list. -/
def setCookie (m : Jar) (headers : List String) (domain : String) : Jar :=
  headers.foldl (fun m h => setCookieOne m h domain) m

/-- Rendering of a stored value inside a template literal: JavaScript prints
`undefined` for an absent value. -/
def renderVal : Option String → String
  | some v => v
  | none => "undefined"

/-- `CookieJar.getCookieHeader`: `"; "`-join `name=value` for every record
whose domain contains or is contained in the requested domain. -/
def getCookieHeader (m : Jar) (domain : String) : String :=
  String.intercalate "; "
    ((m.filter fun p => jsIncludes domain p.2.domain || jsIncludes p.2.domain domain).map
      fun p => p.1 ++ "=" ++ renderVal p.2.value)

/-- `CookieJar.set(name, value, domain, path)`. -/
def jarSetDirect (m : Jar) (name value domain path : String) : Jar :=
  jarSet m name { value := some value, domain := domain, path := path }

/-- Lookup of the full record under a name (the internal `Map.get`). -/
def jarFind (m : Jar) (n : String) : Option CookieRec :=
  (List.find? (fun p => p.1 == n) m).map (·.2)

/-- `CookieJar.get(name)`: the stored value, when any. -/
def jarGet (m : Jar) (n : String) : Option String :=
  (jarFind m n).bind (·.value)

/-- `CookieJar.clear()`. -/
def jarClear (_ : Jar) : Jar := []

/-- `CookieJar.export()`: `Array.from(this.cookies.entries())`. -/
def exportJar (m : Jar) : List (String × CookieRec) := m

/-- `CookieJar.import(data)`: `this.cookies = new Map(data)` — the `Map`
constructor replays `set` over the entries starting from an empty map. -/
def importJar (d : List (String × CookieRec)) : Jar :=
  d.foldl (fun m p => jarSet m p.1 p.2) ([] : Jar)

/-! ## Session and manual cookie login (`apiClient.ts`)

`loginWithCookie` is interactive; its pure core — the parsing of the pasted
cookie string into a session, including the configured-language override read
from the settings — is embedded as `parseCookieLogin`.  The surrounding UI
steps (instruction dialog, input box, best-effort verification GET) do not
change the parse outcome. -/

/-- Equality on `Except` results is decidable componentwise. -/
instance {ε α : Type} [DecidableEq ε] [DecidableEq α] : DecidableEq (Except ε α) := fun x y =>
  match x, y with
  | Except.ok a, Except.ok b =>
    if h : a = b then Decidable.isTrue (by rw [h])
    else Decidable.isFalse (fun hc => h (Except.ok.inj hc))
  | Except.error a, Except.error b =>
    if h : a = b then Decidable.isTrue (by rw [h])
    else Decidable.isFalse (fun hc => h (Except.error.inj hc))
  | Except.ok _, Except.error _ => Decidable.isFalse (fun hc => Except.noConfusion hc)
  | Except.error _, Except.ok _ => Decidable.isFalse (fun hc => Except.noConfusion hc)

/-- The persisted session `{PHPSESSID, language}` (`CookieSession` in
`types.ts`; the language is an arbitrary string at runtime because the code
casts the scraped value). -/
structure CookieSession where
  PHPSESSID : String
  language : String
deriving DecidableEq, Repr

/-- `const [name, ...valueParts] = cookie.split("="); value = valueParts.join("=")`:
split one pair on the FIRST `=` only. -/
def pairNameValue (cookie : String) : String × String :=
  let parts := jsSplit cookie '='
  (parts.headD "", String.intercalate "=" (parts.drop 1))

/-- One iteration of the cookie-scan loop of `loginWithCookie`: the
accumulator carries `(phpSessId, languageValue)`. -/
def scanCookiePair (acc : String × String) (cookie : String) : String × String :=
  let nv := pairNameValue cookie
  if jsTrim nv.1 = "PHPSESSID" then (jsTrim nv.2, acc.2)
  else if jsTrim nv.1 = "language" then (acc.1, jsTrim nv.2)
  else acc

/-- The cookie-string parsing loop of `loginWithCookie`: split on `;`, trim,
scan for `PHPSESSID` and `language` (trimmed names, values joined after the
first `=` and trimmed), require a non-empty session id, then let a truthy
configured interface language override the scraped one. -/
def parseCookieLogin (cookieString : String) (configuredLanguage : Option String) :
    Except String CookieSession :=
  let cookies := (jsSplit cookieString ';').map jsTrim
  let st := cookies.foldl scanCookiePair ("", "zh_CN")
  if st.1 = "" then Except.error "Cookie 中未找到 PHPSESSID"
  else Except.ok { PHPSESSID := st.1, language := jsOrStr configuredLanguage st.2 }

/-- The trimmed value of a pair when its trimmed name matches. -/
def pairMatch (name : String) (cookie : String) : Option String :=
  let nv := pairNameValue cookie
  if jsTrim nv.1 = name then some (jsTrim nv.2) else none

/-- The value the scan loop leaves for a given cookie name: the trimmed
value of the LAST `;`-separated pair whose trimmed name matches. -/
def lastPairValue (s : String) (name : String) : Option String :=
  (((jsSplit s ';').map jsTrim).reverse).findSome? (pairMatch name)

/-! ## HTTP response status handling (`apiClient.ts`, `makeRequest`)

The model starts where the transport ends: given the status code, headers
and the (already decompressed) body text, `makeRequest` either throws
`new Error(`HTTP ${statusCode}: ${body.substring(0, 200)}`)` or returns
`{body, headers, statusCode}`. -/

/-- A successful `makeRequest` result. -/
structure HttpResult where
  body : String
  headers : List (String × String)
  statusCode : Nat
deriving DecidableEq, Repr

/-- The status contract of `makeRequest` after the body has been read. -/
def handleStatus (statusCode : Nat) (headers : List (String × String)) (body : String) :
    Except String HttpResult :=
  if statusCode ≥ 400 then
    Except.error ("HTTP " ++ toString statusCode ++ ": " ++ jsSubstringTo body 200)
  else Except.ok { body := body, headers := headers, statusCode := statusCode }

/-! ## Client state and logout (`apiClient.ts`, `clearSession`) -/

/-- The three persisted keys of the VS Code global state used by the client
(`openjudge.session`, `openjudge.cookieJar`, `openjudge.credentials`);
`none` models a cleared key (`update(key, undefined)`). -/
structure GlobalStateStore where
  session : Option CookieSession
  cookieJar : Option (List (String × CookieRec))
  credentials : Option (String × String)
deriving DecidableEq, Repr

/-- The client's session-relevant state: in-memory session, cookie jar and
the persisted store. -/
structure ClientState where
  session : Option CookieSession
  cookieJar : Jar
  store : GlobalStateStore
deriving DecidableEq, Repr

/-- `clearSession` (logout): null the session, clear the jar, erase the
three persisted keys.  Total — no step can fail. -/
def clearSession (s : ClientState) : ClientState :=
  { session := none
    cookieJar := jarClear s.cookieJar
    store := { session := none, cookieJar := none, credentials := none } }

/-! ## Submission polling loop (`submissionService.ts`, `showSubmissionStatus`)

`updateStatus` fetches the redirect page, parses the status, re-renders,
and clears the interval when the parsed status is terminal or
`attempts >= maxAttempts` (30); `attempts` is incremented after the check.
The loop shape is: one initial awaited `updateStatus()` — at which point
`interval` is still `undefined`, so the clear is a no-op — and only then
`interval = setInterval(updateStatus, pollingInterval)`.  `pollRequests`
counts the status requests issued for a fixture `fetchStatus : Nat → String`
giving the parsed status of the (0-indexed) n-th response. -/

/-- The terminal statuses (`finalStatuses` in the source). -/
def finalStatuses : List String :=
  ["Accepted", "Wrong Answer", "Time Limit Exceeded", "Memory Limit Exceeded",
   "Runtime Error", "Compile Error", "Presentation Error"]

/-- Does this parsed status stop the poll? -/
def isFinalStatus (s : String) : Bool := finalStatuses.contains s

/-- Requests issued by the interval ticks from call index `i` on (the call
with index `i` sees `attempts = i`): each tick issues one request and stops
the interval exactly when its own status is terminal or the ceiling check
`attempts >= 30` fires. -/
def pollTicks (fetchStatus : Nat → String) (i : Nat) : Nat :=
  if isFinalStatus (fetchStatus i) then 1
  else if 30 ≤ i then 1
  else 1 + pollTicks fetchStatus (i + 1)
termination_by 31 - i
decreasing_by omega

/-- Total number of status requests issued by `showSubmissionStatus`: the
initial awaited call (index 0, which cannot clear the not-yet-created
interval) plus the interval ticks starting at call index 1. -/
def pollRequests (fetchStatus : Nat → String) : Nat :=
  1 + pollTicks fetchStatus 1

/-! ## HtmlParser (`htmlParser.ts`)

Cheerio operates on a parsed DOM; the extractors are embedded as functions
of the *selection results* they read, which is exactly the data the source
touches: for the group landing page the `li.practice-info` /
`li.contest-info` items with their first `h3 a` link, for a problem listing
the `table tbody tr` rows with their `td` cells, and for a detail page the
`dt`/`dd` sibling pairs of the two definition lists.  A selection's
`.text()` concatenates the text of all selected elements; `.html()` reads
the inner markup of the first one (`null`, hence `Option`/`""`, when the
selection is empty). -/

/-- First match of the localized problem-count pattern `(<N>题)`: scan left
to right for `(`, a maximal non-empty digit run, `题`, `)`. -/
def findCount : List Char → Option Nat
  | [] => none
  | '(' :: rest =>
    (match rest.takeWhile Char.isDigit, rest.dropWhile Char.isDigit with
     | d :: ds, '题' :: ')' :: _ => some (natOfDigits (d :: ds))
     | _, _ => findCount rest)
  | _ :: rest => findCount rest

/-- The capture of `/\/([^/]+)\/$/`: the final non-empty slash-free path
segment of an `href` that ends in `/<segment>/`. -/
def lastSegMatch (href : String) : Option String :=
  match href.toList.reverse with
  | '/' :: rest =>
    let seg := rest.takeWhile (fun c => c ≠ '/')
    match seg, rest.drop seg.length with
    | _ :: _, '/' :: _ => some (String.mk seg.reverse)
    | _, _ => none
  | _ => none

/-- Which of the two scanned element families an `li` belongs to. -/
inductive LiClass
  | practiceInfo
  | contestInfo
deriving DecidableEq, Repr

/-- One scanned list item: its family, the `href` and text of its first
`h3 a` link, and the text of the link's parent element (which carries the
`(<N>题)` count). -/
structure LiItem where
  cls : LiClass
  href : Option String
  linkText : String
  parentText : String
deriving DecidableEq, Repr

/-- `'practice' | 'contest'` (the `type` tag of a `Practice`). -/
inductive PracticeType
  | practice
  | contest
deriving DecidableEq, Repr

/-- The `Practice` record of `types.ts`. -/
structure Practice where
  id : String
  name : String
  groupSubdomain : String
  problemCount : Nat
  url : String
  type : PracticeType
deriving DecidableEq, Repr

/-- The body shared by both `.each` callbacks of `parsePracticeList`:
match the `href` against `/\/([^/]+)\/$/`, read the count from the link's
parent text (`0` when the pattern is absent), build the record. -/
def extractPracticeItem (subdomain : String) (ty : PracticeType) (it : LiItem) :
    Option Practice :=
  match it.href with
  | none => none
  | some href =>
    match lastSegMatch href with
    | none => none
    | some pid =>
      some { id := pid
             name := jsTrim it.linkText
             groupSubdomain := subdomain
             problemCount := (findCount it.parentText.toList).getD 0
             url := "http://" ++ subdomain ++ ".openjudge.cn/" ++ pid ++ "/"
             type := ty }

/-- `HtmlParser.parsePracticeList`: push every matching `li.practice-info`
item, then every matching `li.contest-info` item, into one array. -/
def parsePracticeList (doc : List LiItem) (subdomain : String) : List Practice :=
  let ps :=
    (doc.filter fun it => it.cls == LiClass.practiceInfo).foldl
      (fun acc it => acc ++ (extractPracticeItem subdomain PracticeType.practice it).toList) []
  (doc.filter fun it => it.cls == LiClass.contestInfo).foldl
    (fun acc it => acc ++ (extractPracticeItem subdomain PracticeType.contest it).toList) ps

/-- One `td` cell of a listing row: its class attribute list and the
concatenated text of its `a` descendants. -/
structure Cell where
  classes : List String
  aText : String
deriving DecidableEq, Repr

/-- One `table tbody tr` row. -/
structure PLRow where
  cells : List Cell
deriving DecidableEq, Repr

/-- A problem-listing page: the optional `input[name="contestId"]` value
and the table rows in document order. -/
structure ProblemListDoc where
  contestIdVal : Option String
  rows : List PLRow
deriving DecidableEq, Repr

/-- The `Problem` record of `types.ts`.  The two numeric count fields are
`Option (Option Int)`: the outer `Option` is JavaScript `undefined` (cell
absent), the inner one is `NaN` from `parseInt` on non-numeric text. -/
structure Problem where
  id : String
  title : String
  practiceId : String
  groupSubdomain : String
  acceptanceRate : Option String
  passedCount : Option (Option Int)
  attemptCount : Option (Option Int)
  url : String
  contestId : Option String
deriving DecidableEq, Repr

/-- `$row.find('td.<cls>')`. -/
def cellsWithClass (r : PLRow) (cls : String) : List Cell :=
  r.cells.filter fun c => c.classes.contains cls

/-- `.find('a').text()` over a selection: concatenation over its cells. -/
def selAText (cs : List Cell) : String := String.join (cs.map (·.aText))

/-- Does a row expose both semantic cells of the primary layout? -/
def rowHasPrimary (r : PLRow) : Bool :=
  !(cellsWithClass r "problem-id").isEmpty && !(cellsWithClass r "title").isEmpty

/-- The problem URL both layouts build. -/
def problemUrl (subdomain practiceId problemId : String) : String :=
  "http://" ++ subdomain ++ ".openjudge.cn/" ++ practiceId ++ "/" ++ problemId ++ "/"

/-- The primary-layout row body: id and title from the `td.problem-id` /
`td.title` anchors, attempts from `td.submissions` when present; rows whose
id or title text is empty are skipped. -/
def mkPrimaryProblem (practiceId subdomain : String) (contestId : Option String)
    (r : PLRow) : Option Problem :=
  let problemId := jsTrim (selAText (cellsWithClass r "problem-id"))
  let problemTitle := jsTrim (selAText (cellsWithClass r "title"))
  let subs := cellsWithClass r "submissions"
  let attemptCount : Option (Option Int) :=
    if !subs.isEmpty then some (parseIntJS (jsTrim (selAText subs))) else none
  if problemId ≠ "" ∧ problemTitle ≠ "" then
    some { id := problemId
           title := problemTitle
           practiceId := practiceId
           groupSubdomain := subdomain
           acceptanceRate := none
           passedCount := none
           attemptCount := attemptCount
           url := problemUrl subdomain practiceId problemId
           contestId := contestId }
  else none

/-- The generic-layout row body: at least two `td` cells; the first five are
read positionally as id, title, acceptance rate, passed count, attempt
count, the cells beyond the second being optional; rows whose id or title
text is empty are skipped. -/
def mkGenericProblem (practiceId subdomain : String) (contestId : Option String)
    (r : PLRow) : Option Problem :=
  match r.cells with
  | c0 :: c1 :: rest =>
    let problemId := jsTrim c0.aText
    let problemTitle := jsTrim c1.aText
    let acceptanceRate := (rest.get? 0).map fun c => jsTrim c.aText
    let passedCount := (rest.get? 1).map fun c => parseIntJS (jsTrim c.aText)
    let attemptCount := (rest.get? 2).map fun c => parseIntJS (jsTrim c.aText)
    if problemId ≠ "" ∧ problemTitle ≠ "" then
      some { id := problemId
             title := problemTitle
             practiceId := practiceId
             groupSubdomain := subdomain
             acceptanceRate := acceptanceRate
             passedCount := passedCount
             attemptCount := attemptCount
             url := problemUrl subdomain practiceId problemId
             contestId := contestId }
    else none
  | _ => none

/-- `HtmlParser.parseProblemList`: a first pass over all rows records in
`foundProblems` whether ANY row exposes both primary cells and pushes the
primary extraction of those rows; only when the flag stayed `false` does a
second pass apply the generic positional extraction. -/
def parseProblemList (doc : ProblemListDoc) (practiceId subdomain : String) :
    List Problem :=
  let contestId := doc.contestIdVal
  let pass1 :=
    doc.rows.foldl
      (fun (acc : Bool × List Problem) r =>
        if rowHasPrimary r then
          (true, acc.2 ++ (mkPrimaryProblem practiceId subdomain contestId r).toList)
        else acc)
      (false, [])
  if pass1.1 then pass1.2
  else
    doc.rows.foldl
      (fun acc r => acc ++ (mkGenericProblem practiceId subdomain contestId r).toList)
      pass1.2

/-- A `pre` block inside a content `dd`: its inner markup and its text. -/
structure PreEl where
  html : String
  text : String
deriving DecidableEq, Repr

/-- A `dd` element: its `pre` descendants, inner markup and text. -/
structure DdEl where
  pres : List PreEl
  html : String
  text : String
deriving DecidableEq, Repr

/-- A `dt` element paired with its adjacent `dd` (`next('dd')` may match
nothing). -/
structure DtDdPair where
  dt : String
  dd : Option DdEl
deriving DecidableEq, Repr

/-- A problem-detail page as the source reads it: the `#pageTitle h2` text,
the `dl.problem-params` and `dl.problem-content` definition pairs, and the
first `.problem-statistics dl dd` text. -/
structure DetailDoc where
  titleText : String
  paramPairs : List DtDdPair
  contentPairs : List DtDdPair
  statsFirstDd : Option String
deriving DecidableEq, Repr

/-- The `ProblemDetail` record of `types.ts` (`globalId` is always assigned
a string by the parser). -/
structure ProblemDetail where
  id : String
  title : String
  timeLimit : String
  memoryLimit : String
  description : String
  input : String
  output : String
  sampleInput : String
  sampleOutput : String
  hint : Option String
  source : Option String
  globalId : String
deriving DecidableEq, Repr

/-- JavaScript `a || b` on two strings: an empty `a` is falsy. -/
def jsNonEmptyOr (a b : String) : String := if a = "" then b else a

/-- Remove the first occurrence of a character (JavaScript
`s.replace(c, '')` with a plain one-character pattern). -/
def removeFirstChar : List Char → Char → List Char
  | [], _ => []
  | x :: t, c => if x = c then t else x :: removeFirstChar t c

/-- `s.replace(':', '')` used on parameter and info keys. -/
def jsReplaceFirst (s : String) (c : Char) : String :=
  String.mk (removeFirstChar s.toList c)

/-- A parameter key: `$(dt).text().trim().replace(':', '')`. -/
def paramKey (p : DtDdPair) : String := jsReplaceFirst (jsTrim p.dt) ':'

/-- A parameter value: `$(dt).next('dd').text().trim()` (an empty selection
has text `""`). -/
def paramValue (p : DtDdPair) : String := jsTrim ((p.dd.map (·.text)).getD "")

/-- The `params` record built by `parseProblemDetail`. -/
def paramsRecord (doc : DetailDoc) : List (String × String) :=
  doc.paramPairs.map fun p => (paramKey p, paramValue p)

/-- A content value: the first `pre`'s markup (or, when that markup is
empty, the concatenated `pre` text), else the `dd`'s markup (or its text);
a missing `dd` yields `""` (`null || ""`). -/
def contentValue (dd : Option DdEl) : String :=
  match dd with
  | none => ""
  | some d =>
    match d.pres with
    | [] => jsNonEmptyOr d.html d.text
    | p :: rest => jsNonEmptyOr p.html (String.join ((p :: rest).map (·.text)))

/-- The `content` record built by `parseProblemDetail` (keys are the
trimmed `dt` texts). -/
def contentRecord (doc : DetailDoc) : List (String × String) :=
  doc.contentPairs.map fun p => (jsTrim p.dt, contentValue p.dd)

/-- JavaScript object indexing after repeated assignments: the LAST
assignment to a key wins. -/
def recGet (m : List (String × String)) (k : String) : Option String :=
  m.foldl (fun acc p => if p.1 = k then some p.2 else acc) none

/-- `'(^\d+:)'` stripping on the title: drop a leading non-empty digit run
followed by `:` when present. -/
def stripNumColon (s : String) : String :=
  let cs := s.toList
  match cs.takeWhile Char.isDigit, cs.drop (cs.takeWhile Char.isDigit).length with
  | _ :: _, ':' :: rest => String.mk rest
  | _, _ => s

/-- `HtmlParser.parseProblemDetail`: every logical field is a `||`-chain
over the localized and the English key of its record, with a literal
default. -/
def parseProblemDetail (doc : DetailDoc) (problemId : String) : ProblemDetail :=
  let params := paramsRecord doc
  let content := contentRecord doc
  { id := problemId
    title := jsTrim (stripNumColon doc.titleText)
    timeLimit := jsOrStr (recGet params "总时间限制") (jsOrStr (recGet params "Time Limit") "N/A")
    memoryLimit := jsOrStr (recGet params "内存限制") (jsOrStr (recGet params "Memory Limit") "N/A")
    description := jsOrStr (recGet content "描述") (jsOrStr (recGet content "Description") "")
    input := jsOrStr (recGet content "输入") (jsOrStr (recGet content "Input") "")
    output := jsOrStr (recGet content "输出") (jsOrStr (recGet content "Output") "")
    sampleInput := jsOrStr (recGet content "样例输入") (jsOrStr (recGet content "Sample Input") "")
    sampleOutput := jsOrStr (recGet content "样例输出") (jsOrStr (recGet content "Sample Output") "")
    hint := jsOrOpt (recGet content "提示") (recGet content "Hint")
    source := jsOrOpt (recGet content "来源") (recGet content "Source")
    globalId := jsTrim (doc.statsFirstDd.getD "") }


/-- The primary-layout result: the extraction over the rows that expose
both semantic cells. -/
def primaryProblems (doc : ProblemListDoc) (practiceId subdomain : String) : List Problem :=
  (doc.rows.filter rowHasPrimary).filterMap
    (mkPrimaryProblem practiceId subdomain doc.contestIdVal)

/-- The generic-layout result: the positional extraction over all rows. -/
def genericProblems (doc : ProblemListDoc) (practiceId subdomain : String) : List Problem :=
  doc.rows.filterMap (mkGenericProblem practiceId subdomain doc.contestIdVal)


/-- A two-cookie jar as produced by a normal login. -/
def demoJar : Jar :=
  [("PHPSESSID", { value := some "abc123", domain := "openjudge.cn", path := "/" }),
   ("language", { value := some "zh_CN", domain := "openjudge.cn", path := "/" })]

/-- A listing fixture with zero primary-layout rows and three generic rows
(anchors in the first two cells; 2, 3 and 5 cells respectively). -/
def genericListDoc : ProblemListDoc :=
  { contestIdVal := some "777"
    rows :=
      [ { cells := [ { classes := [], aText := "1001" },
                     { classes := [], aText := "A+B" } ] },
        { cells := [ { classes := [], aText := "1002" },
                     { classes := [], aText := "Sort" },
                     { classes := [], aText := "85%" } ] },
        { cells := [ { classes := [], aText := "1003" },
                     { classes := [], aText := "Graph" },
                     { classes := [], aText := "70%" },
                     { classes := [], aText := "10" },
                     { classes := [], aText := "20" } ] } ] }

/-- A practice item fixture with a localized count in the link's parent. -/
def demoLiItem : LiItem :=
  { cls := LiClass.practiceInfo, href := some "/ch01/", linkText := " 练习一 ",
    parentText := "练习一(12题)" }

/-- The record `parsePracticeList` derives from `demoLiItem`. -/
def demoPractice : Practice :=
  { id := "ch01", name := "练习一", groupSubdomain := "grp", problemCount := 12,
    url := "http://grp.openjudge.cn/ch01/", type := PracticeType.practice }

/-- A detail page exposing BOTH the localized key (with empty content) and
the English key (with content) for the description field. -/
def dualKeyDoc : DetailDoc :=
  { titleText := ""
    paramPairs := []
    contentPairs :=
      [ { dt := "描述", dd := some { pres := [], html := "", text := "" } },
        { dt := "Description",
          dd := some { pres := [], html := "<p>english</p>", text := "english" } } ]
    statsFirstDd := none }

/-- A detail page exposing only the English `Description` label. -/
def englishOnlyDoc : DetailDoc :=
  { titleText := "1001:A+B"
    paramPairs := []
    contentPairs :=
      [ { dt := "Description",
          dd := some { pres := [], html := "<p>the text</p>", text := "the text" } } ]
    statsFirstDd := none }

/-! ## Helper lemmas -/

theorem foldl_opt_append {α β : Type} (f : α → Option β) (l : List α) (acc : List β) :
    l.foldl (fun acc x => acc ++ (f x).toList) acc = acc ++ l.filterMap f := by
  induction l generalizing acc with
  | nil => simp
  | cons x t ih =>
    simp only [List.foldl_cons, ih, List.filterMap_cons]
    cases f x <;> simp

theorem jarSet_eq_append (m : Jar) (n : String) (r : CookieRec)
    (h : (List.any m fun p => p.1 == n) = false) : jarSet m n r = m ++ [(n, r)] := by
  simp [jarSet, h]

theorem find?_map_overwrite (m : Jar) (n : String) (r : CookieRec)
    (h : (List.any m fun p => p.1 == n) = true) :
    List.find? (fun p => p.1 == n) (m.map fun p => if p.1 == n then (n, r) else p)
      = some (n, r) := by
  induction m with
  | nil => simp at h
  | cons x t ih =>
    by_cases hx : (x.1 == n) = true
    · have hrepl : (if x.1 == n then (n, r) else x) = (n, r) := by rw [if_pos hx]
      rw [List.map_cons, hrepl, List.find?_cons_of_pos _ (by simp)]
    · have hxf : (x.1 == n) = false := by simpa using hx
      have h' : (List.any t fun p => p.1 == n) = true := by
        obtain ⟨p, hp, hpe⟩ := List.any_eq_true.mp h
        cases List.mem_cons.mp hp with
        | inl he => exact absurd (he ▸ hpe) (by simp [hxf])
        | inr ht => exact List.any_eq_true.mpr ⟨p, ht, hpe⟩
      have hrepl : (if x.1 == n then (n, r) else x) = x := by rw [if_neg (by simp [hxf])]
      rw [List.map_cons, hrepl, List.find?_cons_of_neg _ (by simp [hxf])]
      exact ih h'

theorem find?_append_new (m : Jar) (n : String) (r : CookieRec)
    (h : (List.any m fun p => p.1 == n) = false) :
    List.find? (fun p => p.1 == n) (m ++ [(n, r)]) = some (n, r) := by
  induction m with
  | nil => simp
  | cons x t ih =>
    have hx : (x.1 == n) = false := by
      cases hb : (x.1 == n) with
      | false => rfl
      | true => simp [List.any_cons, hb] at h
    have h' : (List.any t fun p => p.1 == n) = false := by
      simpa [List.any_cons, hx] using h
    rw [List.cons_append, List.find?_cons_of_neg _ (by simp [hx])]
    exact ih h'

theorem jarFind_jarSet (m : Jar) (n : String) (r : CookieRec) :
    jarFind (jarSet m n r) n = some r := by
  cases hb : (List.any m fun p => p.1 == n) with
  | true =>
    unfold jarFind jarSet
    rw [if_pos hb, find?_map_overwrite m n r hb]
    rfl
  | false =>
    unfold jarFind jarSet
    rw [if_neg (by simp [hb]), find?_append_new m n r hb]
    rfl

theorem foldl_jarSet_eq (l : List (String × CookieRec)) (acc : Jar)
    (h : ((acc ++ l).map Prod.fst).Nodup) :
    l.foldl (fun m p => jarSet m p.1 p.2) acc = acc ++ l := by
  induction l generalizing acc with
  | nil => simp
  | cons x t ih =>
    have h1 : ((acc.map Prod.fst) ++ (x.1 :: t.map Prod.fst)).Nodup := by
      simpa using h
    have hdis := (List.nodup_append.mp h1).2.2
    have hmem : x.1 ∉ acc.map Prod.fst := fun hm => (hdis hm) (List.mem_cons_self _ _)
    have hany : (List.any acc fun p => p.1 == x.1) = false := by
      have hnt : ¬ (List.any acc fun p => p.1 == x.1) = true := by
        intro hb
        obtain ⟨p, hp, hpe⟩ := List.any_eq_true.mp hb
        exact hmem (List.mem_map.mpr ⟨p, hp, by simpa using hpe⟩)
      exact Bool.eq_false_iff.mpr hnt
    have hstep : jarSet acc x.1 x.2 = acc ++ [x] := by
      rw [jarSet_eq_append acc x.1 x.2 hany]
    have hre : (acc ++ [x]) ++ t = acc ++ x :: t := by simp
    rw [List.foldl_cons, hstep, ih (acc ++ [x]) (by rw [hre]; exact h), hre]

/-- `findSome?` on a one-element list is just the function. -/
theorem findSome?_single {α β : Type} (f : α → Option β) (x : α) :
    List.findSome? f [x] = f x := by
  cases hfx : f x <;> simp [List.findSome?_cons, hfx]

/-- `getD` through `Option.or` nests the defaults. -/
theorem getD_or {α : Type} (o o' : Option α) (d : α) :
    (o.or o').getD d = o.getD (o'.getD d) := by
  cases o <;> simp [Option.or]

/-- One scan step's effect on the session-id component. -/
theorem scanCookiePair_fst (acc : String × String) (x : String) :
    (scanCookiePair acc x).1 = (pairMatch "PHPSESSID" x).getD acc.1 := by
  by_cases h1 : jsTrim (pairNameValue x).1 = "PHPSESSID"
  · simp [scanCookiePair, pairMatch, h1]
  · by_cases h2 : jsTrim (pairNameValue x).1 = "language"
    · simp [scanCookiePair, pairMatch, h1, h2]
    · simp [scanCookiePair, pairMatch, h1, h2]

/-- One scan step's effect on the language component. -/
theorem scanCookiePair_snd (acc : String × String) (x : String) :
    (scanCookiePair acc x).2 = (pairMatch "language" x).getD acc.2 := by
  by_cases h1 : jsTrim (pairNameValue x).1 = "PHPSESSID"
  · have hne : ¬ jsTrim (pairNameValue x).1 = "language" := by
      rw [h1]; decide
    simp [scanCookiePair, pairMatch, h1, hne]
  · by_cases h2 : jsTrim (pairNameValue x).1 = "language"
    · simp [scanCookiePair, pairMatch, h1, h2]
    · simp [scanCookiePair, pairMatch, h1, h2]

/-- The session-id component of the whole scan is the last matching pair. -/
theorem scan_fst (l : List String) (a b : String) :
    (l.foldl scanCookiePair (a, b)).1
      = (l.reverse.findSome? (pairMatch "PHPSESSID")).getD a := by
  induction l generalizing a b with
  | nil => simp
  | cons x t ih =>
    have hih := ih (scanCookiePair (a, b) x).1 (scanCookiePair (a, b) x).2
    rw [show ((scanCookiePair (a, b) x).1, (scanCookiePair (a, b) x).2)
          = scanCookiePair (a, b) x from rfl] at hih
    rw [List.foldl_cons, List.reverse_cons, List.findSome?_append, findSome?_single,
      getD_or, ← scanCookiePair_fst (a, b) x]
    exact hih

/-- The language component of the whole scan is the last matching pair. -/
theorem scan_snd (l : List String) (a b : String) :
    (l.foldl scanCookiePair (a, b)).2
      = (l.reverse.findSome? (pairMatch "language")).getD b := by
  induction l generalizing a b with
  | nil => simp
  | cons x t ih =>
    have hih := ih (scanCookiePair (a, b) x).1 (scanCookiePair (a, b) x).2
    rw [show ((scanCookiePair (a, b) x).1, (scanCookiePair (a, b) x).2)
          = scanCookiePair (a, b) x from rfl] at hih
    rw [List.foldl_cons, List.reverse_cons, List.findSome?_append, findSome?_single,
      getD_or, ← scanCookiePair_snd (a, b) x]
    exact hih

/-- `parseCookieLogin` in terms of the last matching pairs. -/
theorem parseCookieLogin_eq (s : String) (cfg : Option String) :
    parseCookieLogin s cfg =
      (if (lastPairValue s "PHPSESSID").getD "" = "" then
        Except.error "Cookie 中未找到 PHPSESSID"
       else
        Except.ok { PHPSESSID := (lastPairValue s "PHPSESSID").getD ""
                    language := jsOrStr cfg ((lastPairValue s "language").getD "zh_CN") }) := by
  simp only [parseCookieLogin, lastPairValue]
  rw [scan_fst, scan_snd]

/-- The first pass of `parseProblemList` computes, in one fold, the
`foundProblems` flag (did ANY row match the primary layout?) and the list
of primary extractions of the matching rows. -/
theorem pass1_eq (rows : List PLRow) (g : PLRow → Option Problem) (b : Bool)
    (acc : List Problem) :
    rows.foldl
        (fun (acc : Bool × List Problem) r =>
          if rowHasPrimary r then (true, acc.2 ++ (g r).toList) else acc)
        (b, acc)
      = (b || rows.any rowHasPrimary, acc ++ (rows.filter rowHasPrimary).filterMap g) := by
  induction rows generalizing b acc with
  | nil => simp
  | cons r t ih =>
    cases hr : rowHasPrimary r with
    | true =>
      rw [List.foldl_cons, if_pos hr, ih, List.filter_cons_of_pos hr, List.filterMap_cons]
      cases g r <;> simp [hr]
    | false =>
      rw [List.foldl_cons, if_neg (by simp [hr]), ih, List.filter_cons_of_neg (by simp [hr])]
      simp [hr]

/-! ## Claim theorems -/

/-- C1: for every jar state (whose keys are pairwise distinct, as `Map`
entries always are), importing the result of `export()` yields a jar whose
`getCookieHeader(domain)` is identical to the original jar's for every
domain. -/
theorem cookie_roundtrip_header (j : Jar) (h : (j.map Prod.fst).Nodup) (domain : String) :
    getCookieHeader (importJar (exportJar j)) domain = getCookieHeader j domain := by
  have hj : importJar (exportJar j) = j := by
    have := foldl_jarSet_eq j [] (by simpa using h)
    simpa [importJar, exportJar] using this
  rw [hj]

/-- C1 witness: the round-trip preserves the rendered header of a concrete
two-cookie jar. -/
theorem cookie_roundtrip_header_witness :
    getCookieHeader (importJar (exportJar demoJar)) "openjudge.cn"
      = getCookieHeader demoJar "openjudge.cn" :=
  cookie_roundtrip_header demoJar (by decide) "openjudge.cn"

/-- C2: the generic positional layout is attempted if and only if zero rows
match the primary layout, and on a fixture with three generic rows it
returns exactly three positionally-built Problems. -/
theorem problemList_fallback :
    (∀ (doc : ProblemListDoc) (practiceId subdomain : String),
      parseProblemList doc practiceId subdomain =
        if doc.rows.any rowHasPrimary then primaryProblems doc practiceId subdomain
        else genericProblems doc practiceId subdomain)
  ∧ genericListDoc.rows.any rowHasPrimary = false
  ∧ parseProblemList genericListDoc "p" "g"
      = [ { id := "1001", title := "A+B", practiceId := "p", groupSubdomain := "g",
            acceptanceRate := none, passedCount := none, attemptCount := none,
            url := "http://g.openjudge.cn/p/1001/", contestId := some "777" },
          { id := "1002", title := "Sort", practiceId := "p", groupSubdomain := "g",
            acceptanceRate := some "85%", passedCount := none, attemptCount := none,
            url := "http://g.openjudge.cn/p/1002/", contestId := some "777" },
          { id := "1003", title := "Graph", practiceId := "p", groupSubdomain := "g",
            acceptanceRate := some "70%", passedCount := some (some 10),
            attemptCount := some (some 20),
            url := "http://g.openjudge.cn/p/1003/", contestId := some "777" } ] := by
  refine ⟨fun doc pid sub => ?_, by decide, by decide⟩
  simp only [parseProblemList]
  rw [pass1_eq]
  simp only [Bool.false_or, List.nil_append]
  by_cases hany : doc.rows.any rowHasPrimary = true
  · rw [if_pos hany, if_pos hany]
    rfl
  · have hany' : doc.rows.any rowHasPrimary = false := by simpa using hany
    have hfil : doc.rows.filter rowHasPrimary = [] := by
      rw [List.filter_eq_nil_iff]
      intro a ha hc
      rw [List.any_eq_true.mpr ⟨a, ha, hc⟩] at hany'
      cases hany'
    rw [if_neg (by simp [hany']), if_neg (by simp [hany']), hfil]
    simp only [List.filterMap_nil]
    rw [foldl_opt_append]
    simp [genericProblems]

/-- C3: the polling loop does NOT stop at the first response when that
response is already terminal: because the interval is created only after
the initial awaited update, a constant "Accepted" fixture draws 2 status
requests instead of 1.  When the first terminal status arrives at a later
response (here the 3rd), polling does stop exactly at that response. -/
theorem poll_first_terminal_behavior :
    pollRequests (fun _ => "Accepted") = 2
  ∧ pollRequests (fun n => if n < 2 then "Waiting" else "Accepted") = 3 := by
  have hA : isFinalStatus "Accepted" = true := by decide
  have hW : isFinalStatus "Waiting" = false := by decide
  constructor
  · simp [pollRequests, pollTicks.eq_def, hA]
  · simp [pollRequests, pollTicks.eq_def, hA, hW]

/-- C4: parsing `"SID=abc; Path=/; Domain=example.com"` stores exactly the
claimed record; attribute names match case-insensitively; other attributes
are ignored; the stored record overwrites any record of the same name. -/
theorem setCookie_header_parsing :
    (setCookieOne [] "SID=abc; Path=/; Domain=example.com" "openjudge.cn"
      = [("SID", { value := some "abc", domain := "example.com", path := "/" })])
  ∧ (setCookieOne [] "SID=abc; pAtH=/x; DOMAIN=ex.com" "openjudge.cn"
      = [("SID", { value := some "abc", domain := "ex.com", path := "/x" })])
  ∧ (setCookieOne [] "SID=abc; Path=/; Domain=example.com; HttpOnly; Secure; Max-Age=3600"
        "openjudge.cn"
      = [("SID", { value := some "abc", domain := "example.com", path := "/" })])
  ∧ (∀ m : Jar,
      jarFind (setCookieOne m "SID=abc; Path=/; Domain=example.com" "openjudge.cn") "SID"
        = some { value := some "abc", domain := "example.com", path := "/" }) := by
  refine ⟨by decide, by decide, by decide, fun m => ?_⟩
  have hred : setCookieOne m "SID=abc; Path=/; Domain=example.com" "openjudge.cn"
      = jarSet m "SID" { value := some "abc", domain := "example.com", path := "/" } := rfl
  rw [hred, jarFind_jarSet]

/-- C5 counterexample: `"PHPSESSID=abc; PHPSESSID="` contains a
`;`-separated pair named `PHPSESSID` with non-empty value `"abc"` (split on
its first `=`), yet the login parse fails — the claimed iff is false
because the scan keeps the LAST matching pair. -/
theorem loginWithCookie_iff_counterexample :
    ((jsSplit "PHPSESSID=abc; PHPSESSID=" ';').map jsTrim).get? 0 = some "PHPSESSID=abc"
  ∧ pairNameValue "PHPSESSID=abc" = ("PHPSESSID", "abc")
  ∧ parseCookieLogin "PHPSESSID=abc; PHPSESSID=" none
      = Except.error "Cookie 中未找到 PHPSESSID" := by
  refine ⟨by decide, by decide, by decide⟩

/-- C5 amended: the LAST pair named `PHPSESSID` decides the outcome — a
session is established exactly when its trimmed value is non-empty, the
session id is that value, and the locale is the configured language when
truthy, else the last `language` pair's value, else `zh_CN`. -/
theorem loginWithCookie_last_pair_wins (s : String) (cfg : Option String) :
    (∀ v, lastPairValue s "PHPSESSID" = some v → v ≠ "" →
      parseCookieLogin s cfg =
        Except.ok { PHPSESSID := v
                    language := jsOrStr cfg ((lastPairValue s "language").getD "zh_CN") })
  ∧ ((lastPairValue s "PHPSESSID").getD "" = "" →
      parseCookieLogin s cfg = Except.error "Cookie 中未找到 PHPSESSID") := by
  constructor
  · intro v hv hne
    rw [parseCookieLogin_eq, hv]
    simp only [Option.getD_some]
    rw [if_neg hne]
  · intro h0
    rw [parseCookieLogin_eq, if_pos h0]

/-- C5 amended witness: the spec's example input yields the expected
session. -/
theorem loginWithCookie_last_pair_wins_witness :
    parseCookieLogin "PHPSESSID=xyz789; language=en_US" none
      = Except.ok { PHPSESSID := "xyz789", language := "en_US" } := by
  have h := (loginWithCookie_last_pair_wins "PHPSESSID=xyz789; language=en_US" none).1
      "xyz789" (by decide) (by decide)
  exact h.trans (by decide)

/-- C6: after the body is read, `makeRequest` errors exactly on statuses
`>= 400`, the error carries the status code and the first 200 characters of
the body, and every status `< 400` returns `{body, headers, statusCode}`. -/
theorem makeRequest_status_contract (sc : Nat) (hdrs : List (String × String)) (body : String) :
    (400 ≤ sc → handleStatus sc hdrs body
      = Except.error ("HTTP " ++ toString sc ++ ": " ++ jsSubstringTo body 200))
  ∧ (sc < 400 → handleStatus sc hdrs body
      = Except.ok { body := body, headers := hdrs, statusCode := sc })
  ∧ ((∃ e, handleStatus sc hdrs body = Except.error e) ↔ 400 ≤ sc)
  ∧ (jsSubstringTo body 200).toList = body.toList.take 200 := by
  refine ⟨fun h => ?_, fun h => ?_, ?_, rfl⟩
  · unfold handleStatus
    exact if_pos h
  · unfold handleStatus
    exact if_neg (Nat.not_le.mpr h)
  · constructor
    · rintro ⟨e, he⟩
      by_contra hlt
      simp [handleStatus, hlt] at he
    · intro h
      exact ⟨"HTTP " ++ toString sc ++ ": " ++ jsSubstringTo body 200, by
        unfold handleStatus
        exact if_pos h⟩

/-- C6 witness: a 404 fails with the code and body preview; a 200 returns
the triple. -/
theorem makeRequest_status_contract_witness :
    handleStatus 404 [] "whoops" = Except.error "HTTP 404: whoops"
  ∧ handleStatus 200 [] "ok-body"
      = Except.ok { body := "ok-body", headers := [], statusCode := 200 } := by
  constructor
  · exact ((makeRequest_status_contract 404 [] "whoops").1 (by decide)).trans (by decide)
  · exact ((makeRequest_status_contract 200 [] "ok-body").2.1 (by decide)).trans (by decide)

/-- C7: `parsePracticeList` returns the practice-family records (document
order) followed by the contest-family records (document order), each record
tagged with its family's kind, and every record's count comes from the
`(<N>题)` pattern of its accompanying text, defaulting to 0. -/
theorem parsePracticeList_families :
    (∀ (doc : List LiItem) (subdomain : String),
      parsePracticeList doc subdomain =
        (doc.filter fun it => it.cls == LiClass.practiceInfo).filterMap
            (extractPracticeItem subdomain PracticeType.practice)
          ++ (doc.filter fun it => it.cls == LiClass.contestInfo).filterMap
              (extractPracticeItem subdomain PracticeType.contest))
  ∧ (∀ (subdomain : String) (ty : PracticeType) (it : LiItem) (p : Practice),
      extractPracticeItem subdomain ty it = some p →
        p.type = ty ∧ p.problemCount = (findCount it.parentText.toList).getD 0)
  ∧ findCount "某练习(12题)".toList = some 12
  ∧ findCount "no count here".toList = none := by
  refine ⟨fun doc sub => ?_, fun sub ty it p hp => ?_, by decide, by decide⟩
  · simp only [parsePracticeList]
    rw [foldl_opt_append, foldl_opt_append]
    simp
  · cases hh : it.href with
    | none => simp [extractPracticeItem, hh] at hp
    | some href =>
      cases hm : lastSegMatch href with
      | none => simp [extractPracticeItem, hh, hm] at hp
      | some pid =>
        simp only [extractPracticeItem, hh, hm] at hp
        have hrec := Option.some.inj hp
        rw [← hrec]
        exact ⟨rfl, rfl⟩

/-- C7 witness: the record extracted from a concrete practice item is
tagged `practice` and carries the count 12 parsed from `(12题)`. -/
theorem parsePracticeList_families_witness :
    demoPractice.type = PracticeType.practice
  ∧ demoPractice.problemCount = (findCount demoLiItem.parentText.toList).getD 0 :=
  parsePracticeList_families.2.1 "grp" PracticeType.practice demoLiItem demoPractice (by decide)

/-- C8 counterexample: on a page carrying BOTH the localized key `描述`
(with empty content) and the English key `Description`, the code takes the
English content — the localized key is present but not preferred, because
`||` treats the empty string as absent. -/
theorem problemDetail_localized_not_preferred :
    recGet (contentRecord dualKeyDoc) "描述" = some ""
  ∧ recGet (contentRecord dualKeyDoc) "Description" = some "<p>english</p>"
  ∧ (parseProblemDetail dualKeyDoc "1").description = "<p>english</p>" := by
  refine ⟨by decide, by decide, by decide⟩

/-- C8 amended: each field prefers the localized key only when its value is
non-empty; an absent OR empty localized value falls back to the English
key (then to the field's default).  Shown for a content field and a
parameter field. -/
theorem problemDetail_dual_key_lookup (doc : DetailDoc) (problemId : String) :
    (∀ v, recGet (contentRecord doc) "描述" = some v → v ≠ "" →
      (parseProblemDetail doc problemId).description = v)
  ∧ (recGet (contentRecord doc) "描述" = none ∨ recGet (contentRecord doc) "描述" = some "" →
      (parseProblemDetail doc problemId).description
        = jsOrStr (recGet (contentRecord doc) "Description") "")
  ∧ (∀ v, recGet (paramsRecord doc) "总时间限制" = some v → v ≠ "" →
      (parseProblemDetail doc problemId).timeLimit = v)
  ∧ (recGet (paramsRecord doc) "总时间限制" = none
        ∨ recGet (paramsRecord doc) "总时间限制" = some "" →
      (parseProblemDetail doc problemId).timeLimit
        = jsOrStr (recGet (paramsRecord doc) "Time Limit") "N/A") := by
  refine ⟨fun v hv hne => ?_, fun h => ?_, fun v hv hne => ?_, fun h => ?_⟩
  · simp [parseProblemDetail, hv, jsOrStr, hne]
  · rcases h with h | h <;> simp [parseProblemDetail, h, jsOrStr]
  · simp [parseProblemDetail, hv, jsOrStr, hne]
  · rcases h with h | h <;> simp [parseProblemDetail, h, jsOrStr]

/-- C8 amended witness: a page exposing only the English `Description`
label still populates the description field with that content. -/
theorem problemDetail_dual_key_lookup_witness :
    (parseProblemDetail englishOnlyDoc "1001").description = "<p>the text</p>" := by
  have h := (problemDetail_dual_key_lookup englishOnlyDoc "1001").2.1 (Or.inl (by decide))
  exact h.trans (by decide)

/-- C9: logout is idempotent and total — a second `clearSession` leaves the
identical final state, with the in-memory session null, the jar empty, and
all three persisted keys cleared. -/
theorem clearSession_idempotent (s : ClientState) :
    clearSession (clearSession s) = clearSession s
  ∧ (clearSession s).session = none
  ∧ (clearSession s).cookieJar = []
  ∧ (clearSession s).store
      = { session := none, cookieJar := none, credentials := none } :=
  ⟨rfl, rfl, rfl, rfl⟩

/-- C10: a `Set-Cookie` value containing `=` inside the cookie value is
truncated to the text between the first and second `=` by `setCookie`,
while the manual cookie-import path joins everything after the first `=`. -/
theorem setCookie_value_truncation :
    setCookieOne [] "SID=a=b; Path=/" "openjudge.cn"
      = [("SID", { value := some "a", domain := "openjudge.cn", path := "/" })]
  ∧ pairNameValue "PHPSESSID=a=b" = ("PHPSESSID", "a=b")
  ∧ parseCookieLogin "PHPSESSID=a=b" none
      = Except.ok { PHPSESSID := "a=b", language := "zh_CN" } := by
  refine ⟨by decide, by decide, by decide⟩
